import Mathlib

/-!
Verification of the tile-based maze-chase simulation in
`src/pacman4k_claudv0.py`.

Positions are continuous sub-tile coordinates; the Python source uses
floats whose values here are exact decimal fractions (speeds 1.5, 1.2,
0.8, 2.0), so we embed positions as rationals.  Distance comparisons in
the source go through `math.hypot`; since `sqrt` is strictly monotone,
comparing hypot values on exact inputs is equivalent to comparing the
squared distances, which is how distances are embedded here.
Rendering, audio and input capture are outside the simulation core and
are not modelled.
-/

namespace Pacman4k

/-- `TILE_SIZE = 20`. -/
def TILE_SIZE : Int := 20

/-- `MAZE_COLS = 28`. -/
def MAZE_COLS : Int := 28

/-- `MAZE_ROWS = 31`. -/
def MAZE_ROWS : Int := 31

/-- `SCREEN_WIDTH = TILE_SIZE * MAZE_COLS`. -/
def SCREEN_WIDTH : Int := TILE_SIZE * MAZE_COLS

/-- `FPS = 60`. -/
def FPS : Nat := 60

/-- `DOT_SCORE = 10`. -/
def DOT_SCORE : Nat := 10

/-- `POWER_DOT_SCORE = 50`. -/
def POWER_DOT_SCORE : Nat := 50

/-- `GHOST_EAT_SCORES = [200, 400, 800, 1600]`. -/
def GHOST_EAT_SCORES : List Nat := [200, 400, 800, 1600]

/-- `POWER_PELLET_TIME = 6 * FPS`. -/
def POWER_PELLET_TIME : Int := 6 * 60

/-- `READY_TIME = 2 * FPS`. -/
def READY_TIME : Int := 2 * 60

/-- `START_LIVES = 3`. -/
def START_LIVES : Int := 3

/-- The fixed `maze_layout` constant: 31 rows of 28 characters. -/
def maze_layout : List String := [
  "############################",
  "#............##............#",
  "#.####.#####.##.#####.####.#",
  "#o####.#####.##.#####.####o#",
  "#.####.#####.##.#####.####.#",
  "#..........................#",
  "#.####.##.########.##.####.#",
  "#.####.##.########.##.####.#",
  "#......##....##....##......#",
  "######.##### ## #####.######",
  "######.##### ## #####.######",
  "######.##          ##.######",
  "######.## ###--### ##.######",
  "######.## #      # ##.######",
  "       ## #      # ##       ",
  "######.## #      # ##.######",
  "######.## ######## ##.######",
  "######.##          ##.######",
  "######.## ######## ##.######",
  "######.## ######## ##.######",
  "#............##............#",
  "#.####.#####.##.#####.####.#",
  "#.####.#####.##.#####.####.#",
  "#o..##................##..o#",
  "###.##.##.########.##.##.###",
  "###.##.##.########.##.##.###",
  "#......##....##....##......#",
  "#.##########.##.##########.#",
  "#.##########.##.##########.#",
  "#..........................#",
  "############################"]

/-- The maze as a grid of characters, `[list(row) for row in maze_layout]`. -/
abbrev Maze : Type := List (List Char)

/-- The initial pellet overlay, before the start-tile pellet is removed. -/
def originalMaze : Maze := maze_layout.map String.toList

/-- Character lookup `maze[row][col]`, returning a blank for out-of-range
indices (the source only indexes in range). -/
def mazeAt (m : Maze) (row col : Int) : Char :=
  if h : 0 ≤ row ∧ row < (m.length : Int) then
    let r := (m.get ⟨row.toNat, by omega⟩)
    if h2 : 0 ≤ col ∧ col < (r.length : Int) then
      r.get ⟨col.toNat, by omega⟩
    else ' '
  else ' '

/-- The wall test used by both movers: `maze[r][c] not in ['#', '-']`
negated, i.e. the tile blocks movement. -/
def isWall (m : Maze) (row col : Int) : Bool :=
  mazeAt m row col = '#' ∨ mazeAt m row col = '-'

/-- `Game.count_pellets`: the number of `.` and `o` characters in the
fixed layout. -/
def count_pellets : Nat :=
  (maze_layout.map (fun row => row.toList.count '.' + row.toList.count 'o')).sum

/-- Pellets in one overlay row: `row.count('.') + row.count('o')`. -/
def rowPellets (row : List Char) : Nat := row.count '.' + row.count 'o'

/-- Pellet count of a mutable overlay (same counting as `count_pellets`,
applied to the current grid). -/
def pelletCount (m : Maze) : Nat := (m.map rowPellets).sum

/-- Grid update `maze[row][col] = ch` (no-op out of range, as in the
source all writes are in range). -/
def setTile (m : Maze) (row col : Int) (ch : Char) : Maze :=
  if 0 ≤ row ∧ 0 ≤ col then
    m.set row.toNat ((m.getD row.toNat []).set col.toNat ch)
  else m

/-- The maze produced by `Game.reset_level`: the original layout with the
pellet at the player start tile (13, 23) removed. -/
def resetMaze : Maze :=
  if mazeAt originalMaze 23 13 = '.' ∨ mazeAt originalMaze 23 13 = 'o' then
    setTile originalMaze 23 13 ' '
  else originalMaze

/-- `TILE_SIZE // 2` (integer division in the source). -/
def halfTile : Int := TILE_SIZE / 2

/-- `get_tile`: `(int(x // TILE_SIZE), int(y // TILE_SIZE))` — floor
division on the continuous coordinates. -/
def getTile (x y : ℚ) : Int × Int := (⌊x / 20⌋, ⌊y / 20⌋)

/-- The tunnel wrap applied to a horizontal coordinate (shared shape of
`Pacman.update` lines 478-481 and `Ghost.move_in_direction` lines
705-708): a coordinate below 0 is replaced by
`SCREEN_WIDTH - TILE_SIZE//2`, one at or beyond `SCREEN_WIDTH` by
`TILE_SIZE//2`, anything in range is untouched. -/
def tunnelWrapX (x : ℚ) : ℚ :=
  if x < 0 then ((SCREEN_WIDTH - halfTile : Int) : ℚ)
  else if ((SCREEN_WIDTH : Int) : ℚ) ≤ x then ((halfTile : Int) : ℚ)
  else x

/-- The per-wrap offset the specification would preserve: a coordinate
crossing a bound reappears shifted by exactly one screen width
(spec-side definition, for comparison with `tunnelWrapX`). -/
def offsetWrapX (x : ℚ) : ℚ :=
  if x < 0 then x + ((SCREEN_WIDTH : Int) : ℚ)
  else if ((SCREEN_WIDTH : Int) : ℚ) ≤ x then x - ((SCREEN_WIDTH : Int) : ℚ)
  else x

/-- Player mover state (`Pacman`): continuous position, committed
direction, buffered direction, speed.  The mouth-animation fields are
cosmetic rendering state and are not modelled. -/
structure PacState where
  x : ℚ
  y : ℚ
  dir : Int × Int
  next_dir : Int × Int
  speed : ℚ
deriving DecidableEq, Repr

/-- `Pacman.reset` at a given start tile. -/
def pacmanReset (start : Int × Int) : PacState :=
  { x := (start.1 * TILE_SIZE + halfTile : Int)
    y := (start.2 * TILE_SIZE + halfTile : Int)
    dir := (0, 0)
    next_dir := (0, 0)
    speed := 3 / 2 }

/-- The centering test shared by the movers: both axes within 2 units of
the tile center. -/
def centered (x y : ℚ) (col row : Int) : Prop :=
  |x - ((col * TILE_SIZE + halfTile : Int) : ℚ)| < 2 ∧
  |y - ((row * TILE_SIZE + halfTile : Int) : ℚ)| < 2

instance (x y : ℚ) (col row : Int) : Decidable (centered x y col row) := by
  unfold centered
  infer_instance

/-- The turn half of `Pacman.update`: when centered on the tile and a
buffered direction exists whose one-step-ahead tile is in the grid and
not a wall or gate, commit the buffered direction and clear it. -/
def pacmanTurn (m : Maze) (p : PacState) : PacState :=
  let col := ⌊p.x / 20⌋
  let row := ⌊p.y / 20⌋
  if centered p.x p.y col row ∧ p.next_dir ≠ (0, 0) then
    let nc := col + p.next_dir.1
    let nr := row + p.next_dir.2
    if 0 ≤ nc ∧ nc < MAZE_COLS ∧ 0 ≤ nr ∧ nr < MAZE_ROWS ∧ ¬ isWall m nr nc then
      { p with dir := p.next_dir, next_dir := (0, 0) }
    else p
  else p

/-- The movement half of `Pacman.update`: advance one step, accept the
move when the destination tile is in the grid and not a wall or gate,
zero the direction when the destination is a wall or gate, then apply
the tunnel wrap when the destination row is 14 (the wrap tests the
tentative coordinate, whether or not the move was accepted). -/
def pacmanMove (m : Maze) (p : PacState) : PacState :=
  if p.dir ≠ (0, 0) then
    let nx := p.x + (p.dir.1 : ℚ) * p.speed
    let ny := p.y + (p.dir.2 : ℚ) * p.speed
    let ncol := ⌊nx / 20⌋
    let nrow := ⌊ny / 20⌋
    let p2 :=
      if 0 ≤ ncol ∧ ncol < MAZE_COLS ∧ 0 ≤ nrow ∧ nrow < MAZE_ROWS then
        if ¬ isWall m nrow ncol then { p with x := nx, y := ny }
        else { p with dir := (0, 0) }
      else p
    if nrow = 14 then
      if nx < 0 ∨ ((SCREEN_WIDTH : Int) : ℚ) ≤ nx then { p2 with x := tunnelWrapX nx }
      else p2
    else p2
  else p

/-- `Pacman.update` (without the cosmetic mouth animation): turn at tile
center, then move. -/
def pacmanUpdate (m : Maze) (p : PacState) : PacState :=
  pacmanMove m (pacmanTurn m p)

/-- The four adversary identities. -/
inductive GhostName
  | blinky
  | pinky
  | inky
  | clyde
deriving DecidableEq, Repr

/-- Adversary mode strings.  The source never assigns the string
"chase"; mode stays at `scatter` within a level, but `update_target`
branches on `mode == "scatter"` versus anything else, and that
anything-else branch is the chase targeting, so the value is kept
representable. -/
inductive GMode
  | pen
  | leaving
  | scatter
  | chase
  | dead
  | entering
deriving DecidableEq, Repr

/-- Adversary state (`Ghost`).  Colors are cosmetic and not modelled. -/
structure GhostState where
  name : GhostName
  x : ℚ
  y : ℚ
  dir : Int × Int
  speed : ℚ
  mode : GMode
  frightened : Bool
  frightened_timer : Int
  target : Int × Int
  scatter_target : Int × Int
  start_tile : Int × Int
  pen_timer : Nat
deriving DecidableEq, Repr

/-- `Ghost.reset`. -/
def ghostReset (g : GhostState) : GhostState :=
  { g with
    x := ((g.start_tile.1 * TILE_SIZE + halfTile : Int) : ℚ)
    y := ((g.start_tile.2 * TILE_SIZE + halfTile : Int) : ℚ)
    dir := if g.name = GhostName.blinky then (0, -1) else (0, 1)
    speed := 6 / 5
    mode := if g.name = GhostName.blinky then GMode.scatter else GMode.pen
    frightened := false
    frightened_timer := 0
    target := g.scatter_target
    pen_timer := 0 }

/-- `Ghost.__init__` for a given identity. -/
def ghostInit (n : GhostName) (start : Int × Int) (scatter : Int × Int) : GhostState :=
  ghostReset
    { name := n, x := 0, y := 0, dir := (0, 0), speed := 0, mode := GMode.pen
      frightened := false, frightened_timer := 0, target := scatter
      scatter_target := scatter, start_tile := start, pen_timer := 0 }

/-- `Ghost.release`: only a penned adversary transitions to `leaving`. -/
def ghostRelease (g : GhostState) : GhostState :=
  if g.mode = GMode.pen then { g with mode := GMode.leaving, dir := (0, -1) } else g

/-- `Ghost.frighten`: a no-op in the dead / entering / pen / leaving
modes; otherwise sets the frightened flag, restarts the per-ghost
countdown at its full value, reverses the direction and lowers the
speed. -/
def ghostFrighten (g : GhostState) : GhostState :=
  if g.mode ≠ GMode.dead ∧ g.mode ≠ GMode.entering ∧
     g.mode ≠ GMode.pen ∧ g.mode ≠ GMode.leaving then
    { g with
      frightened := true
      frightened_timer := POWER_PELLET_TIME
      dir := (-g.dir.1, -g.dir.2)
      speed := 4 / 5 }
  else g

/-- `Ghost.unfrighten`. -/
def ghostUnfrighten (g : GhostState) : GhostState :=
  { g with frightened := false, speed := 6 / 5 }

/-- `Ghost.die`: dead mode, fastest speed, target fixed at the pen
entrance tile (13, 11). -/
def ghostDie (g : GhostState) : GhostState :=
  { g with mode := GMode.dead, frightened := false, speed := 2, target := (13, 11) }

/-- `Ghost.move_in_direction`: advance by direction × speed with no wall
check of any kind, then apply the tunnel wrap if the resulting row is
the tunnel row. -/
def ghostMoveInDirection (g : GhostState) : GhostState :=
  let nx := g.x + (g.dir.1 : ℚ) * g.speed
  let ny := g.y + (g.dir.2 : ℚ) * g.speed
  if ⌊ny / 20⌋ = 14 then { g with x := tunnelWrapX nx, y := ny }
  else { g with x := nx, y := ny }

/-- Squared Euclidean distance between integer tiles; `math.hypot`
comparisons on exact inputs order the same way. -/
def distSq (a b : Int × Int) : Int := (a.1 - b.1) ^ 2 + (a.2 - b.2) ^ 2

/-- The fixed candidate order of `Ghost.seek_target`: up, down, left,
right. -/
def seekCand : List (Int × Int) := [(0, -1), (0, 1), (-1, 0), (1, 0)]

/-- One iteration of the candidate loop of `Ghost.seek_target`: the
direct reverse of the current direction is skipped, an out-of-grid
one-step-ahead tile is skipped, and a strictly smaller distance to the
target replaces the best so far (`none` is the initial infinity). -/
def seekF (dir0 : Int × Int) (col row : Int) (target : Int × Int)
    (acc : (Int × Int) × Option Int) (d : Int × Int) : (Int × Int) × Option Int :=
  if d = (-dir0.1, -dir0.2) then acc
  else
    let nc := col + d.1
    let nr := row + d.2
    if 0 ≤ nc ∧ nc < MAZE_COLS ∧ 0 ≤ nr ∧ nr < MAZE_ROWS then
      let ds := distSq target (nc, nr)
      match acc.2 with
      | none => (d, some ds)
      | some b => if ds < b then (d, some ds) else acc
    else acc

/-- The accumulator pass of `Ghost.seek_target`: best direction starts
at the current direction, best distance at infinity (`none`). -/
def seekFold (dir0 : Int × Int) (col row : Int) (target : Int × Int) :
    (Int × Int) × Option Int :=
  seekCand.foldl (seekF dir0 col row target) (dir0, none)

/-- The direction committed at a centered intersection by
`Ghost.seek_target`. -/
def seekChoose (dir0 : Int × Int) (col row : Int) (target : Int × Int) : Int × Int :=
  (seekFold dir0 col row target).1

/-- `Ghost.seek_target`: choose at a centered intersection, then move. -/
def ghostSeekTarget (g : GhostState) : GhostState :=
  let col := ⌊g.x / 20⌋
  let row := ⌊g.y / 20⌋
  let g1 :=
    if centered g.x g.y col row then { g with dir := seekChoose g.dir col row g.target }
    else g
  ghostMoveInDirection g1

/-- `Ghost.update_target`.  The scatter branch and the blinky / pinky /
inky chase branches are total; the clyde chase branch evaluates
`math.hypot(pac_col - math.cos, pac_row - pow)`, which subtracts
built-in function objects from integers and raises a `TypeError` before
any comparison happens, so it is embedded as a fault. -/
def updateTarget (g : GhostState) (pacTile : Int × Int) (pacDir : Int × Int)
    (blinkyTile : Int × Int) : Except String GhostState :=
  if g.mode = GMode.scatter then Except.ok { g with target := g.scatter_target }
  else
    match g.name with
    | GhostName.blinky => Except.ok { g with target := pacTile }
    | GhostName.pinky =>
        Except.ok { g with target := (pacTile.1 + pacDir.1 * 4, pacTile.2 + pacDir.2 * 4) }
    | GhostName.inky =>
        let ac := pacTile.1 + pacDir.1 * 2
        let ar := pacTile.2 + pacDir.2 * 2
        Except.ok { g with target := (ac + (ac - blinkyTile.1), ar + (ar - blinkyTile.2)) }
    | GhostName.clyde => Except.error "TypeError"

/-- Modelled from the spec: the intended shy (clyde) chase targeting,
which the source mangles into a fault — target the player when the
Euclidean tile distance from the shy adversary to the player is at
least 8, else retreat to the scatter corner.  Stated on squared
distances: `distance < 8` iff `distSq < 64`. -/
def clydeChaseTargetSpec (clydeTile pacTile scatter : Int × Int) : Int × Int :=
  if distSq pacTile clydeTile < 64 then scatter else pacTile

/-- The game phase strings of `Game`. -/
inductive Phase
  | READY
  | PLAYING
  | DYING
  | GAME_OVER
deriving DecidableEq, Repr

/-- Round-controller state (`Game`), restricted to the simulation core:
screen, fonts, clock and animation counters are rendering collaborators
and are not modelled. -/
structure GameState where
  state : Phase
  state_timer : Int
  score : Nat
  high_score : Nat
  lives : Int
  level : Nat
  pellets_eaten : Nat
  total_pellets : Nat
  ghost_eat_count : Nat
  power_mode : Bool
  power_timer : Int
  maze : Maze
  pacman : PacState
  ghosts : List GhostState
  ghost_release_timer : Nat
  ghosts_released : List GhostName
deriving DecidableEq, Repr

/-- The four adversaries as constructed by `Game.reset_level`, in list
order blinky, pinky, inky, clyde. -/
def initGhosts : List GhostState :=
  [ghostInit GhostName.blinky (13, 11) (25, 0),
   ghostInit GhostName.pinky (13, 14) (2, 0),
   ghostInit GhostName.inky (11, 14) (27, 29),
   ghostInit GhostName.clyde (15, 14) (0, 29)]

/-- `Game.reset_level`: restore the overlay (minus the start-tile
pellet), rebuild both agents, zero the level-scoped counters.  Score,
high score, lives and level are untouched. -/
def resetLevel (g : GameState) : GameState :=
  { g with
    maze := resetMaze
    pacman := pacmanReset (13, 23)
    ghosts := initGhosts
    pellets_eaten := 0
    ghost_eat_count := 0
    power_mode := false
    power_timer := 0
    ghost_release_timer := 0
    ghosts_released := [] }

/-- The pellet-consumption fragment of `Game.update_game` (after the
player mover has advanced): a regular pellet scores `DOT_SCORE`; a
power pellet scores `POWER_DOT_SCORE`, restarts the global power
countdown at its full value, zeroes the ghost-eat streak and frightens
every adversary whose mode is not dead / entering (and
`Ghost.frighten` itself additionally no-ops on pen / leaving). -/
def pelletStep (st : GameState) : GameState :=
  let t := getTile st.pacman.x st.pacman.y
  let c := mazeAt st.maze t.2 t.1
  if c = '.' then
    { st with
      maze := setTile st.maze t.2 t.1 ' '
      score := st.score + DOT_SCORE
      pellets_eaten := st.pellets_eaten + 1 }
  else if c = 'o' then
    { st with
      maze := setTile st.maze t.2 t.1 ' '
      score := st.score + POWER_DOT_SCORE
      pellets_eaten := st.pellets_eaten + 1
      power_mode := true
      power_timer := POWER_PELLET_TIME
      ghost_eat_count := 0
      ghosts := st.ghosts.map (fun gh =>
        if gh.mode ≠ GMode.dead ∧ gh.mode ≠ GMode.entering then ghostFrighten gh else gh) }
  else st

/-- The power-countdown fragment of `Game.update_game`: while the
global power mode is active, decrement, and on expiry unfrighten every
still-frightened adversary. -/
def powerTimerStep (st : GameState) : GameState :=
  if st.power_mode then
    let pt := st.power_timer - 1
    if pt ≤ 0 then
      { st with
        power_timer := pt
        power_mode := false
        ghosts := st.ghosts.map (fun gh => if gh.frightened then ghostUnfrighten gh else gh) }
    else { st with power_timer := pt }
  else st

/-- One release check of `Game.update_game`: if the named adversary has
not been marked released and its pellet threshold or time ceiling
condition holds, call `Ghost.release` on it and mark it. -/
def releaseOne (n : GhostName) (threshold ceiling : Nat) (st : GameState) : GameState :=
  if n ∉ st.ghosts_released ∧
     (st.pellets_eaten ≥ threshold ∨ st.ghost_release_timer > ceiling) then
    { st with
      ghosts := st.ghosts.map (fun gh => if gh.name = n then ghostRelease gh else gh)
      ghosts_released := n :: st.ghosts_released }
  else st

/-- The release fragment of `Game.update_game` (lines 301-311): the
timer advances, then pinky (7 pellets / 4 s), inky (17 / 8 s) and clyde
(32 / 12 s) are checked in that order. -/
def releaseStep (st : GameState) : GameState :=
  let st1 := { st with ghost_release_timer := st.ghost_release_timer + 1 }
  releaseOne GhostName.clyde 32 (12 * FPS)
    (releaseOne GhostName.inky 17 (8 * FPS)
      (releaseOne GhostName.pinky 7 (4 * FPS) st1))

/-- Python `int(...)` truncation toward zero. -/
def pyInt (q : ℚ) : Int := if q < 0 then -⌊-q⌋ else ⌊q⌋

/-- `pygame.Rect(x - 8, y - 8, 16, 16)` bounding-box overlap as tested
by `colliderect`: strict interval overlap of the truncated-integer
boxes. -/
def collideRect (px py gx gy : ℚ) : Bool :=
  let ax := pyInt (px - 8)
  let ay := pyInt (py - 8)
  let bx := pyInt (gx - 8)
  let byy := pyInt (gy - 8)
  ax < bx + 16 ∧ ay < byy + 16 ∧ bx < ax + 16 ∧ byy < ay + 16

/-- Whether a ghost triggers the player-death branch of the collision
loop: not dead, not frightened, bounding boxes overlapping. -/
def killsPacman (pac : PacState) (gh : GhostState) : Prop :=
  gh.mode ≠ GMode.dead ∧ gh.frightened = false ∧
  collideRect pac.x pac.y gh.x gh.y = true

instance (pac : PacState) (gh : GhostState) : Decidable (killsPacman pac gh) := by
  unfold killsPacman
  infer_instance

/-- The collision loop of `Game.update_game` (lines 317-336), folded
over the ghost list in order.  Returns the processed ghost list, the
score gained from eaten frightened adversaries, the updated ghost-eat
streak and whether the player died (early `return`): a dead adversary
is skipped; an overlapping frightened one dies and scores
`GHOST_EAT_SCORES[min(streak, 3)]`; an overlapping non-frightened one
stops all further processing. -/
def resolveGhosts (pac : PacState) : List GhostState → Nat → List GhostState × Nat × Nat × Bool
  | [], cnt => ([], 0, cnt, false)
  | gh :: rest, cnt =>
    if gh.mode = GMode.dead then
      let r := resolveGhosts pac rest cnt
      (gh :: r.1, r.2.1, r.2.2.1, r.2.2.2)
    else if collideRect pac.x pac.y gh.x gh.y then
      if gh.frightened then
        let gain0 := GHOST_EAT_SCORES.getD (min cnt 3) 0
        let r := resolveGhosts pac rest (cnt + 1)
        (ghostDie gh :: r.1, gain0 + r.2.1, r.2.2.1, r.2.2.2)
      else (gh :: rest, 0, cnt, true)
    else
      let r := resolveGhosts pac rest cnt
      (gh :: r.1, r.2.1, r.2.2.1, r.2.2.2)

/-- The level-completion check of `Game.update_game` (lines 338-343):
when pellets eaten reach the stored total, increment the level, run
`reset_level` and return to the READY phase. -/
def checkLevelComplete (st : GameState) : GameState :=
  if st.pellets_eaten ≥ st.total_pellets then
    { resetLevel { st with level := st.level + 1 } with
      state := Phase.READY
      state_timer := READY_TIME }
  else st

/-- The tail of `Game.update_game` (lines 317-343): collisions, then —
only if the collision loop did not end in player death — the
level-completion check.  On death the phase becomes DYING with a
2-second timer and the function returns at once. -/
def updateGameTail (st : GameState) : GameState :=
  let r := resolveGhosts st.pacman st.ghosts st.ghost_eat_count
  let st1 := { st with ghosts := r.1, score := st.score + r.2.1, ghost_eat_count := r.2.2.1 }
  if r.2.2.2 then { st1 with state := Phase.DYING, state_timer := ((FPS * 2 : Nat) : Int) }
  else checkLevelComplete st1

/-- The pellet bookkeeping a level can observe: the overlay and the
eaten counter. -/
structure LevelObs where
  maze : Maze
  pellets_eaten : Nat
deriving DecidableEq

/-- Every mutation the source applies to the pellet overlay or the
pellets-eaten counter, as a step relation: a tick that eats nothing, a
tick whose pellet-consumption branch fires at the (in-grid) player tile
— here generalized to an arbitrary tile holding a pellet — and a full
level reset (`reset_level`, reached from level completion or restart;
`reset_positions` after a death touches neither field and falls under
the idle step). -/
inductive LevelStep : LevelObs → LevelObs → Prop
  | idle (s : LevelObs) : LevelStep s s
  | eat (s : LevelObs) (col row : Int)
      (hch : mazeAt s.maze row col = '.' ∨ mazeAt s.maze row col = 'o') :
      LevelStep s ⟨setTile s.maze row col ' ', s.pellets_eaten + 1⟩
  | reset (s : LevelObs) : LevelStep s ⟨resetMaze, 0⟩

/-- States reachable from the start of a level. -/
def LevelReachable (s : LevelObs) : Prop :=
  Relation.ReflTransGen LevelStep ⟨resetMaze, 0⟩ s

def powerSt : GameState :=
  { state := Phase.PLAYING, state_timer := 0, score := 120, high_score := 0
    lives := 3, level := 1, pellets_eaten := 12, total_pellets := count_pellets
    ghost_eat_count := 2, power_mode := true, power_timer := 100
    maze := originalMaze
    pacman := { x := 30, y := 70, dir := (-1, 0), next_dir := (0, 0), speed := 3 / 2 }
    ghosts := initGhosts, ghost_release_timer := 30, ghosts_released := [] }

def eatenGhost : GhostState :=
  { name := GhostName.blinky, x := 270, y := 470, dir := (1, 0), speed := 4 / 5
    mode := GMode.scatter, frightened := true, frightened_timer := 100
    target := (25, 0), scatter_target := (25, 0), start_tile := (13, 11), pen_timer := 0 }

def relSt : GameState :=
  { state := Phase.PLAYING, state_timer := 0, score := 70, high_score := 0
    lives := 3, level := 1, pellets_eaten := 7, total_pellets := count_pellets
    ghost_eat_count := 0, power_mode := false, power_timer := 0
    maze := resetMaze, pacman := pacmanReset (13, 23), ghosts := initGhosts
    ghost_release_timer := 0, ghosts_released := [] }

def killGhost : GhostState :=
  { name := GhostName.blinky, x := 270, y := 470, dir := (1, 0), speed := 6 / 5
    mode := GMode.scatter, frightened := false, frightened_timer := 0
    target := (25, 0), scatter_target := (25, 0), start_tile := (13, 11), pen_timer := 0 }

def deathSt : GameState :=
  { state := Phase.PLAYING, state_timer := 0, score := 100, high_score := 0
    lives := 3, level := 1, pellets_eaten := 10, total_pellets := count_pellets
    ghost_eat_count := 0, power_mode := false, power_timer := 0
    maze := originalMaze, pacman := pacmanReset (13, 23), ghosts := [killGhost]
    ghost_release_timer := 0, ghosts_released := [] }

/-- The pellet accounting invariant of a level: overlay pellets plus
eaten pellets is one less than the layout total. -/
def LevelInv (s : LevelObs) : Prop :=
  pelletCount s.maze + s.pellets_eaten + 1 = count_pellets

instance (s : LevelObs) : Decidable (LevelInv s) := by
  unfold LevelInv
  infer_instance

/-- The per-candidate distance evaluated by `Ghost.seek_target`: squared
Euclidean distance from the one-step-ahead tile to the target. -/
def seekDist (col row : Int) (target : Int × Int) (d : Int × Int) : Int :=
  distSq target (col + d.1, row + d.2)

/-- A candidate direction the seek loop actually scores: not the direct
reverse of the current direction, and with its one-step-ahead tile
inside the 28 × 31 grid (the loop has no wall test). -/
def seekLegal (dir0 : Int × Int) (col row : Int) (d : Int × Int) : Prop :=
  d ≠ (-dir0.1, -dir0.2) ∧
  0 ≤ col + d.1 ∧ col + d.1 < MAZE_COLS ∧ 0 ≤ row + d.2 ∧ row + d.2 < MAZE_ROWS

instance (dir0 : Int × Int) (col row : Int) (d : Int × Int) :
    Decidable (seekLegal dir0 col row d) := by
  unfold seekLegal
  infer_instance

/-- Example ghost: pinky in scatter, placed 0.5 units right of the left
edge of tile (1, 1), facing left; the destination tile (0, 1) is a
wall. -/
def wallGhost : GhostState :=
  { name := GhostName.pinky, x := 41 / 2, y := 30, dir := (-1, 0), speed := 6 / 5
    mode := GMode.scatter, frightened := false, frightened_timer := 0
    target := (2, 0), scatter_target := (2, 0), start_tile := (13, 14), pen_timer := 0 }

/-- Example player: 0.5 units right of the left edge of tile (1, 1),
moving left toward the wall tile (0, 1), no buffered direction. -/
def wallPac : PacState :=
  { x := 41 / 2, y := 30, dir := (-1, 0), next_dir := (0, 0), speed := 3 / 2 }

/-- Example ghost: clyde with a mode that reaches the chase branch of
`update_target`. -/
def chaseClyde : GhostState :=
  { name := GhostName.clyde, x := 10, y := 590, dir := (-1, 0), speed := 6 / 5
    mode := GMode.chase, frightened := false, frightened_timer := 0
    target := (0, 29), scatter_target := (0, 29), start_tile := (15, 14), pen_timer := 0 }

/-- Example round state: everything eaten, used against the
level-completion branch. -/
def doneState : GameState :=
  { state := Phase.PLAYING, state_timer := 0, score := 2440, high_score := 0
    lives := 3, level := 1, pellets_eaten := count_pellets, total_pellets := count_pellets
    ghost_eat_count := 0, power_mode := false, power_timer := 0
    maze := originalMaze, pacman := pacmanReset (13, 23), ghosts := initGhosts
    ghost_release_timer := 0, ghosts_released := [] }

end Pacman4k

namespace Pacman4k

/-! ## Theorems -/

/-- C5 counterexample: an agent crossing the right bound at
sub-tile offset 1 (coordinate 561) reappears at the fixed point 10, not
at the offset-equivalent coordinate 1 — the wrap discards the sub-tile
offset instead of preserving it. -/
theorem tunnelWrap_not_offset_preserving :
    tunnelWrapX 561 = 10 ∧ offsetWrapX 561 = 1 ∧ tunnelWrapX 561 ≠ offsetWrapX 561 := by
  refine ⟨by norm_num [tunnelWrapX, SCREEN_WIDTH, TILE_SIZE, MAZE_COLS, halfTile],
          by norm_num [offsetWrapX, SCREEN_WIDTH, TILE_SIZE, MAZE_COLS],
          by norm_num [tunnelWrapX, offsetWrapX, SCREEN_WIDTH, TILE_SIZE, MAZE_COLS, halfTile]⟩

/-- C5 (amended): on the tunnel row the wrap sends any coordinate below
0 to the fixed re-entry point `SCREEN_WIDTH - TILE_SIZE//2` and any
coordinate at or past `SCREEN_WIDTH` to the mirror-image point
`TILE_SIZE//2` (symmetric half-tile insets, sub-tile overshoot
discarded), leaves in-bounds coordinates unchanged (hence it is
idempotent), and `Ghost.move_in_direction` applies exactly this wrap on
row 14 and no wrap elsewhere, independent of any wall check. -/
theorem tunnelWrap_fixed_reentry (x : ℚ) (g : GhostState) :
    (x < 0 → tunnelWrapX x = ((SCREEN_WIDTH - halfTile : Int) : ℚ)) ∧
    (((SCREEN_WIDTH : Int) : ℚ) ≤ x → tunnelWrapX x = ((halfTile : Int) : ℚ)) ∧
    (0 ≤ x → x < ((SCREEN_WIDTH : Int) : ℚ) → tunnelWrapX x = x) ∧
    tunnelWrapX (tunnelWrapX x) = tunnelWrapX x ∧
    (⌊(g.y + (g.dir.2 : ℚ) * g.speed) / 20⌋ = 14 →
      (ghostMoveInDirection g).x = tunnelWrapX (g.x + (g.dir.1 : ℚ) * g.speed)) ∧
    (⌊(g.y + (g.dir.2 : ℚ) * g.speed) / 20⌋ ≠ 14 →
      (ghostMoveInDirection g).x = g.x + (g.dir.1 : ℚ) * g.speed) := by
  have hsw : ((SCREEN_WIDTH : Int) : ℚ) = 560 := by norm_num [SCREEN_WIDTH, TILE_SIZE, MAZE_COLS]
  have hht : ((halfTile : Int) : ℚ) = 10 := by norm_num [halfTile, TILE_SIZE]
  refine ⟨?_, ?_, ?_, ?_, ?_, ?_⟩
  · intro h
    simp only [tunnelWrapX, if_pos h]
  · intro h
    rw [hsw] at h
    simp only [tunnelWrapX, hsw, hht]
    rw [if_neg (by linarith), if_pos h]
  · intro h0 h1
    rw [hsw] at h1
    simp only [tunnelWrapX, hsw]
    rw [if_neg (by linarith), if_neg (by linarith)]
  · unfold tunnelWrapX
    rw [hsw, hht]
    split_ifs <;> first | rfl | (exfalso; push_cast [SCREEN_WIDTH, TILE_SIZE, MAZE_COLS, halfTile] at *; linarith)
  · intro h
    simp only [ghostMoveInDirection, h, if_pos]
  · intro h
    simp only [ghostMoveInDirection, if_neg h]

/-- C5 witness: the amended wrap facts evaluated at the concrete
coordinate 561 and at the example ghost. -/
theorem tunnelWrap_fixed_reentry_witness :
    tunnelWrapX (561 : ℚ) = ((halfTile : Int) : ℚ) :=
  (tunnelWrap_fixed_reentry 561 wallGhost).2.1 (by norm_num [SCREEN_WIDTH, TILE_SIZE, MAZE_COLS])

/-- C2: at a chase-branch frame for the shy adversary (clyde at tile
(0, 29), player at tile (13, 23)), the source computes
`math.hypot(pac_col - math.cos, pac_row - pow)` and faults with a
`TypeError` (built-in functions subtracted from integers); the intended
distance is positional and the intended target at this squared distance
205 ≥ 64 is the player tile. -/
theorem clyde_chase_target_faults :
    updateTarget chaseClyde (13, 23) (-1, 0) (13, 11) = Except.error "TypeError" ∧
    distSq (13, 23) (0, 29) = 205 ∧
    clydeChaseTargetSpec (0, 29) (13, 23) (0, 29) = (13, 23) := by
  refine ⟨by rfl, by decide, by decide⟩

/-- C1 counterexample: the adversary mover applies no wall check — the
example ghost, centered-adjacent to wall tile (0, 1) and moving left,
has its position changed by `move_in_direction` and its floor-tile
after the move is the wall tile, so the wall-destination move is not
rejected and the position does not stay unchanged. -/
theorem ghost_wall_move_not_rejected :
    (ghostMoveInDirection wallGhost).x ≠ wallGhost.x ∧
    getTile (ghostMoveInDirection wallGhost).x (ghostMoveInDirection wallGhost).y = (0, 1) ∧
    isWall originalMaze 1 0 = true ∧
    getTile wallGhost.x wallGhost.y = (1, 1) ∧
    isWall originalMaze 1 1 = false := by
  have hx : (ghostMoveInDirection wallGhost).x = 193 / 10 := by
    simp only [ghostMoveInDirection, wallGhost]
    norm_num
  have hy : (ghostMoveInDirection wallGhost).y = 30 := by
    simp only [ghostMoveInDirection, wallGhost]
    norm_num
  refine ⟨?_, ?_, by decide, ?_, by decide⟩
  · rw [hx]
    norm_num [wallGhost]
  · rw [hx, hy]
    norm_num [getTile]
  · norm_num [getTile, wallGhost]

/-- C1 (amended): the player half of the claim holds — a player move
whose in-grid destination tile is a wall or gate is rejected for the
frame with position unchanged and direction zeroed (stated with no
buffered turn pending, so the committed direction is the one tested).
The adversary half of the original claim fails: `move_in_direction`
has no wall check at all, so adversary positions can resolve to wall
tiles (see the counterexample). -/
theorem pacman_wall_move_rejected (m : Maze) (p : PacState)
    (hnd : p.next_dir = (0, 0)) (hd : p.dir ≠ (0, 0))
    (hcol0 : 0 ≤ ⌊(p.x + (p.dir.1 : ℚ) * p.speed) / 20⌋)
    (hcol1 : ⌊(p.x + (p.dir.1 : ℚ) * p.speed) / 20⌋ < MAZE_COLS)
    (hrow0 : 0 ≤ ⌊(p.y + (p.dir.2 : ℚ) * p.speed) / 20⌋)
    (hrow1 : ⌊(p.y + (p.dir.2 : ℚ) * p.speed) / 20⌋ < MAZE_ROWS)
    (hw : isWall m ⌊(p.y + (p.dir.2 : ℚ) * p.speed) / 20⌋
            ⌊(p.x + (p.dir.1 : ℚ) * p.speed) / 20⌋ = true) :
    (pacmanUpdate m p).x = p.x ∧ (pacmanUpdate m p).y = p.y ∧
    (pacmanUpdate m p).dir = (0, 0) := by
  have hturn : pacmanTurn m p = p := by
    simp only [pacmanTurn]
    rw [if_neg]
    intro h
    exact h.2 hnd
  have hnx0 : (0 : ℚ) ≤ p.x + (p.dir.1 : ℚ) * p.speed := by
    have h := Int.le_floor.mp hcol0
    push_cast at h
    linarith
  have hnx1 : p.x + (p.dir.1 : ℚ) * p.speed < 560 := by
    rw [show MAZE_COLS = (28 : Int) from rfl] at hcol1
    have h := Int.floor_lt.mp hcol1
    push_cast at h
    linarith
  unfold pacmanUpdate
  rw [hturn]
  simp only [pacmanMove]
  rw [if_pos hd]
  have hb : 0 ≤ ⌊(p.x + (p.dir.1 : ℚ) * p.speed) / 20⌋ ∧
      ⌊(p.x + (p.dir.1 : ℚ) * p.speed) / 20⌋ < MAZE_COLS ∧
      0 ≤ ⌊(p.y + (p.dir.2 : ℚ) * p.speed) / 20⌋ ∧
      ⌊(p.y + (p.dir.2 : ℚ) * p.speed) / 20⌋ < MAZE_ROWS :=
    ⟨hcol0, hcol1, hrow0, hrow1⟩
  rw [if_pos hb, if_neg (not_not_intro hw)]
  have hsw : ((SCREEN_WIDTH : Int) : ℚ) = 560 := by
    norm_num [SCREEN_WIDTH, TILE_SIZE, MAZE_COLS]
  split_ifs with h1 h2
  · exfalso
    rw [hsw] at h2
    rcases h2 with h2 | h2 <;> linarith
  · exact ⟨rfl, rfl, rfl⟩
  · exact ⟨rfl, rfl, rfl⟩

/-- C1 witness: the rejection evaluated at the example player state
facing the wall tile (0, 1). -/
theorem pacman_wall_move_rejected_witness :
    (pacmanUpdate originalMaze wallPac).x = wallPac.x ∧
    (pacmanUpdate originalMaze wallPac).y = wallPac.y ∧
    (pacmanUpdate originalMaze wallPac).dir = (0, 0) := by
  have h1 : ⌊(wallPac.x + (wallPac.dir.1 : ℚ) * wallPac.speed) / 20⌋ = 0 := by
    norm_num [wallPac]
  have h2 : ⌊(wallPac.y + (wallPac.dir.2 : ℚ) * wallPac.speed) / 20⌋ = 1 := by
    norm_num [wallPac]
  exact pacman_wall_move_rejected originalMaze wallPac rfl (by decide)
    (by rw [h1]) (by rw [h1]; decide) (by rw [h2]; decide) (by rw [h2]; decide)
    (by rw [h1, h2]; decide)


/-- C4 counterexample: at a tick with pellets-eaten at the total, the
completion branch runs `reset_level`, which removes the pellet at the
player start tile (13, 23); the resulting overlay is not the initial
layout, whose tile (13, 23) holds a pellet. -/
theorem level_complete_overlay_not_full :
    doneState.total_pellets ≤ doneState.pellets_eaten ∧
    mazeAt (checkLevelComplete doneState).maze 23 13 = ' ' ∧
    mazeAt originalMaze 23 13 = '.' ∧
    (checkLevelComplete doneState).maze ≠ originalMaze ∧
    (checkLevelComplete doneState).level = doneState.level + 1 ∧
    (checkLevelComplete doneState).state = Phase.READY := by
  refine ⟨by decide, by decide, by decide, by decide, by decide, by decide⟩

/-- C4 (amended): when pellets-eaten reaches the stored total, the
completion branch increments the level by exactly 1, restores the
overlay to the initial layout except that the pellet at the player
start tile (13, 23) is removed, resets both agents and the level
counters, and returns to the READY phase; score, lives and high score
are unchanged by the branch. -/
theorem level_complete_resets (st : GameState) (h : st.total_pellets ≤ st.pellets_eaten) :
    (checkLevelComplete st).level = st.level + 1 ∧
    (checkLevelComplete st).maze = resetMaze ∧
    resetMaze = setTile originalMaze 23 13 ' ' ∧
    (checkLevelComplete st).state = Phase.READY ∧
    (checkLevelComplete st).state_timer = READY_TIME ∧
    (checkLevelComplete st).pacman = pacmanReset (13, 23) ∧
    (checkLevelComplete st).ghosts = initGhosts ∧
    (checkLevelComplete st).pellets_eaten = 0 ∧
    (checkLevelComplete st).power_mode = false ∧
    (checkLevelComplete st).score = st.score ∧
    (checkLevelComplete st).lives = st.lives ∧
    (checkLevelComplete st).high_score = st.high_score := by
  unfold checkLevelComplete
  rw [if_pos h]
  exact ⟨rfl, rfl, by decide, rfl, rfl, rfl, rfl, rfl, rfl, rfl, rfl, rfl⟩

/-- C4 witness: the amended completion behavior evaluated at the
example finished round state. -/
theorem level_complete_resets_witness :
    (checkLevelComplete doneState).level = doneState.level + 1 ∧
    (checkLevelComplete doneState).maze = resetMaze ∧
    resetMaze = setTile originalMaze 23 13 ' ' ∧
    (checkLevelComplete doneState).state = Phase.READY ∧
    (checkLevelComplete doneState).state_timer = READY_TIME ∧
    (checkLevelComplete doneState).pacman = pacmanReset (13, 23) ∧
    (checkLevelComplete doneState).ghosts = initGhosts ∧
    (checkLevelComplete doneState).pellets_eaten = 0 ∧
    (checkLevelComplete doneState).power_mode = false ∧
    (checkLevelComplete doneState).score = doneState.score ∧
    (checkLevelComplete doneState).lives = doneState.lives ∧
    (checkLevelComplete doneState).high_score = doneState.high_score :=
  level_complete_resets doneState (by decide)

/-- C7: consuming a power pellet while the power mode is already
active resets the global countdown to exactly `POWER_PELLET_TIME`
(no accumulation), zeroes the ghost-eat streak, and frightens each
adversary positionally: an eligible adversary (mode not dead /
entering / pen / leaving) comes out frightened with a full per-ghost
countdown, reversed direction and lowered speed, while an adversary in
any of those four modes is left exactly unchanged. -/
theorem power_pellet_restart (st : GameState)
    (ho : mazeAt st.maze (getTile st.pacman.x st.pacman.y).2
            (getTile st.pacman.x st.pacman.y).1 = 'o')
    (_halready : st.power_mode = true) :
    (pelletStep st).power_mode = true ∧
    (pelletStep st).power_timer = POWER_PELLET_TIME ∧
    (pelletStep st).ghost_eat_count = 0 ∧
    (pelletStep st).pellets_eaten = st.pellets_eaten + 1 ∧
    (pelletStep st).score = st.score + POWER_DOT_SCORE ∧
    ∀ (i : Nat) (gh : GhostState), st.ghosts[i]? = some gh →
      ∃ gh2 : GhostState, (pelletStep st).ghosts[i]? = some gh2 ∧
        ((gh.mode ≠ GMode.dead ∧ gh.mode ≠ GMode.entering ∧
          gh.mode ≠ GMode.pen ∧ gh.mode ≠ GMode.leaving) →
            gh2.frightened = true ∧ gh2.frightened_timer = POWER_PELLET_TIME ∧
            gh2.dir = (-gh.dir.1, -gh.dir.2) ∧ gh2.speed = 4 / 5) ∧
        ((gh.mode = GMode.dead ∨ gh.mode = GMode.entering ∨
          gh.mode = GMode.pen ∨ gh.mode = GMode.leaving) → gh2 = gh) := by
  have hne : mazeAt st.maze (getTile st.pacman.x st.pacman.y).2
      (getTile st.pacman.x st.pacman.y).1 ≠ '.' := by
    rw [ho]
    decide
  simp only [pelletStep]
  rw [if_neg hne, if_pos ho]
  refine ⟨rfl, rfl, rfl, rfl, rfl, ?_⟩
  intro i gh hget
  refine ⟨if gh.mode ≠ GMode.dead ∧ gh.mode ≠ GMode.entering then ghostFrighten gh else gh,
          ?_, ?_, ?_⟩
  · simp only [List.getElem?_map, hget]
    rfl
  · intro hel
    rw [if_pos ⟨hel.1, hel.2.1⟩]
    unfold ghostFrighten
    rw [if_pos hel]
    exact ⟨rfl, rfl, rfl, rfl⟩
  · intro hin
    rcases hin with h | h | h | h
    · rw [if_neg (fun hc => hc.1 h)]
    · rw [if_neg (fun hc => hc.2 h)]
    · rw [if_pos ⟨by simp [h], by simp [h]⟩]
      unfold ghostFrighten
      rw [if_neg (fun hc => hc.2.2.1 h)]
    · rw [if_pos ⟨by simp [h], by simp [h]⟩]
      unfold ghostFrighten
      rw [if_neg (fun hc => hc.2.2.2 h)]

/-- C7 witness: the restart behavior evaluated at the example round
state mid power window. -/
theorem power_pellet_restart_witness :
    (pelletStep powerSt).power_mode = true ∧
    (pelletStep powerSt).power_timer = POWER_PELLET_TIME ∧
    (pelletStep powerSt).ghost_eat_count = 0 := by
  have h := power_pellet_restart powerSt
    (by norm_num [powerSt, getTile]; decide) rfl
  exact ⟨h.1, h.2.1, h.2.2.1⟩


/-- Helper: when the first non-dead, non-frightened, overlapping
adversary is reached, the collision loop stops with died = true; the
killer and every later adversary are returned unchanged, only the
earlier entries (skipped dead or eaten frightened ones) are
rewritten. -/
theorem resolveGhosts_killer (pac : PacState) (k : GhostState) (post : List GhostState)
    (hk : killsPacman pac k) :
    ∀ (pre : List GhostState) (cnt : Nat), (∀ g ∈ pre, ¬ killsPacman pac g) →
      ∃ (pre2 : List GhostState) (gain cnt2 : Nat),
        resolveGhosts pac (pre ++ k :: post) cnt = (pre2 ++ k :: post, gain, cnt2, true) ∧
        pre2.length = pre.length := by
  intro pre
  induction pre with
  | nil =>
    intro cnt _
    refine ⟨[], 0, cnt, ?_, rfl⟩
    simp only [List.nil_append, resolveGhosts]
    rw [if_neg hk.1, if_pos hk.2.2, if_neg (by rw [hk.2.1]; simp)]
  | cons g pre ih =>
    intro cnt hpre
    have hgnk : ¬ killsPacman pac g := hpre g (by simp)
    have hrest : ∀ g2 ∈ pre, ¬ killsPacman pac g2 := fun g2 h2 => hpre g2 (by simp [h2])
    by_cases hdead : g.mode = GMode.dead
    · obtain ⟨pre2, gain, cnt2, heq, hlen⟩ := ih cnt hrest
      refine ⟨g :: pre2, gain, cnt2, ?_, by simp [hlen]⟩
      simp only [List.cons_append, resolveGhosts]
      rw [if_pos hdead,
        show resolveGhosts pac (pre.append (k :: post)) cnt =
          (pre2 ++ k :: post, gain, cnt2, true) from heq]
    · by_cases hcol : collideRect pac.x pac.y g.x g.y = true
      · have hfr : g.frightened = true := by
          rcases Bool.eq_false_or_eq_true g.frightened with hf | hf
          · exact hf
          · exact absurd ⟨hdead, hf, hcol⟩ hgnk
        obtain ⟨pre2, gain, cnt2, heq, hlen⟩ := ih (cnt + 1) hrest
        refine ⟨ghostDie g :: pre2, GHOST_EAT_SCORES.getD (min cnt 3) 0 + gain, cnt2,
                ?_, by simp [hlen]⟩
        simp only [List.cons_append, resolveGhosts]
        rw [if_neg hdead, if_pos hcol, if_pos hfr,
          show resolveGhosts pac (pre.append (k :: post)) (cnt + 1) =
            (pre2 ++ k :: post, gain, cnt2, true) from heq]
      · obtain ⟨pre2, gain, cnt2, heq, hlen⟩ := ih cnt hrest
        refine ⟨g :: pre2, gain, cnt2, ?_, by simp [hlen]⟩
        simp only [List.cons_append, resolveGhosts]
        rw [if_neg hdead, if_neg hcol,
          show resolveGhosts pac (pre.append (k :: post)) cnt =
            (pre2 ++ k :: post, gain, cnt2, true) from heq]

/-- C10: if some non-dead, non-frightened adversary overlaps the
player this tick (and the ones before it in list order do not trigger
death), the tick ends in the DYING phase with the 2-second timer; the
level, overlay, pellet counter, lives and player are untouched, and
the killer and every adversary after it are left exactly as they were
— the level-completion check and the remaining collision checks are
abandoned. -/
theorem player_death_aborts_tick (st : GameState) (pre : List GhostState)
    (k : GhostState) (post : List GhostState)
    (hsplit : st.ghosts = pre ++ k :: post)
    (hk : killsPacman st.pacman k)
    (hpre : ∀ g ∈ pre, ¬ killsPacman st.pacman g) :
    (updateGameTail st).state = Phase.DYING ∧
    (updateGameTail st).state_timer = ((FPS * 2 : Nat) : Int) ∧
    (updateGameTail st).level = st.level ∧
    (updateGameTail st).maze = st.maze ∧
    (updateGameTail st).pellets_eaten = st.pellets_eaten ∧
    (updateGameTail st).lives = st.lives ∧
    (updateGameTail st).pacman = st.pacman ∧
    ∃ pre2 : List GhostState, pre2.length = pre.length ∧
      (updateGameTail st).ghosts = pre2 ++ k :: post := by
  obtain ⟨pre2, gain, cnt2, heq, hlen⟩ :=
    resolveGhosts_killer st.pacman k post hk pre st.ghost_eat_count hpre
  simp only [updateGameTail, hsplit, heq]
  exact ⟨rfl, rfl, rfl, rfl, rfl, rfl, rfl, pre2, hlen, rfl⟩

/-- C10 witness: the death-abort behavior evaluated at the example
round state whose only adversary overlaps the player. -/
theorem player_death_aborts_tick_witness :
    (updateGameTail deathSt).state = Phase.DYING ∧
    (updateGameTail deathSt).state_timer = ((FPS * 2 : Nat) : Int) ∧
    (updateGameTail deathSt).level = deathSt.level ∧
    (updateGameTail deathSt).maze = deathSt.maze ∧
    (updateGameTail deathSt).pellets_eaten = deathSt.pellets_eaten ∧
    (updateGameTail deathSt).lives = deathSt.lives ∧
    (updateGameTail deathSt).pacman = deathSt.pacman ∧
    ∃ pre2 : List GhostState, pre2.length = ([] : List GhostState).length ∧
      (updateGameTail deathSt).ghosts = pre2 ++ killGhost :: [] :=
  player_death_aborts_tick deathSt [] killGhost [] rfl
    ⟨by decide, rfl,
     by simp only [collideRect, pyInt, deathSt, pacmanReset, killGhost, TILE_SIZE, halfTile,
          decide_eq_true_eq]
        norm_num⟩
    (by simp)

/-- C8: eating a frightened adversary with streak counter c awards
exactly `GHOST_EAT_SCORES[min(c, 3)]` and increments the streak: 200,
400, 800, 1600 for c = 0, 1, 2, 3, and still 1600 for any c ≥ 3 (a
5th kill); consuming a power pellet resets the streak to 0. -/
theorem ghost_eat_score_sequence (pac : PacState) (gh : GhostState) (c : Nat)
    (hmode : gh.mode ≠ GMode.dead) (hfr : gh.frightened = true)
    (hcol : collideRect pac.x pac.y gh.x gh.y = true) :
    (resolveGhosts pac [gh] c).2.1 = GHOST_EAT_SCORES.getD (min c 3) 0 ∧
    (resolveGhosts pac [gh] c).2.2.1 = c + 1 ∧
    (c = 0 → (resolveGhosts pac [gh] c).2.1 = 200) ∧
    (c = 1 → (resolveGhosts pac [gh] c).2.1 = 400) ∧
    (c = 2 → (resolveGhosts pac [gh] c).2.1 = 800) ∧
    (3 ≤ c → (resolveGhosts pac [gh] c).2.1 = 1600) ∧
    (∀ st : GameState,
        mazeAt st.maze (getTile st.pacman.x st.pacman.y).2
          (getTile st.pacman.x st.pacman.y).1 = 'o' →
        (pelletStep st).ghost_eat_count = 0) := by
  have hres : resolveGhosts pac [gh] c =
      ([ghostDie gh], GHOST_EAT_SCORES.getD (min c 3) 0 + 0, c + 1, false) := by
    simp only [resolveGhosts]
    rw [if_neg hmode, if_pos hcol, if_pos hfr]
  rw [hres]
  refine ⟨by simp, rfl, ?_, ?_, ?_, ?_, ?_⟩
  · intro h; subst h; rfl
  · intro h; subst h; rfl
  · intro h; subst h; rfl
  · intro h
    have hmin : min c 3 = 3 := Nat.min_eq_right h
    simp [hmin, GHOST_EAT_SCORES]
  · intro st ho
    have hne : mazeAt st.maze (getTile st.pacman.x st.pacman.y).2
        (getTile st.pacman.x st.pacman.y).1 ≠ '.' := by
      rw [ho]; decide
    simp only [pelletStep]
    rw [if_neg hne, if_pos ho]

/-- C8 witness: the first kill of a power window awards 200, at the
example player and frightened adversary. -/
theorem ghost_eat_score_sequence_witness :
    (resolveGhosts (pacmanReset (13, 23)) [eatenGhost] 0).2.1 = 200 := by
  have h := ghost_eat_score_sequence (pacmanReset (13, 23)) eatenGhost 0
    (by decide) rfl
    (by simp only [collideRect, pyInt, pacmanReset, eatenGhost, TILE_SIZE, halfTile,
          decide_eq_true_eq]
        norm_num)
  exact h.2.2.1 rfl

/-- C6: with the four adversaries in their reset shape, the three
penned non-leaders transition out of pen on exactly the frames where
their rule first holds: pinky at 7 pellets or once the timer passes
4 s, inky at 17 pellets or 8 s, clyde at 32 pellets or 12 s; an
adversary whose rule does not hold this frame is unchanged, and the
leader is never touched by the release checks. -/
theorem pen_release_rules (st : GameState) (gb gp gi gc : GhostState)
    (hg : st.ghosts = [gb, gp, gi, gc])
    (hbn : gb.name = GhostName.blinky) (hpn : gp.name = GhostName.pinky)
    (hin : gi.name = GhostName.inky) (hcn : gc.name = GhostName.clyde)
    (hpm : gp.mode = GMode.pen) (him : gi.mode = GMode.pen) (hcm : gc.mode = GMode.pen)
    (hrel : st.ghosts_released = []) :
    ∃ gp2 gi2 gc2 : GhostState,
      (releaseStep st).ghosts = [gb, gp2, gi2, gc2] ∧
      (gp2.mode = GMode.leaving ↔ (7 ≤ st.pellets_eaten ∨ 4 * FPS < st.ghost_release_timer + 1)) ∧
      (gi2.mode = GMode.leaving ↔ (17 ≤ st.pellets_eaten ∨ 8 * FPS < st.ghost_release_timer + 1)) ∧
      (gc2.mode = GMode.leaving ↔ (32 ≤ st.pellets_eaten ∨ 12 * FPS < st.ghost_release_timer + 1)) ∧
      (¬(7 ≤ st.pellets_eaten ∨ 4 * FPS < st.ghost_release_timer + 1) → gp2 = gp) ∧
      (¬(17 ≤ st.pellets_eaten ∨ 8 * FPS < st.ghost_release_timer + 1) → gi2 = gi) ∧
      (¬(32 ≤ st.pellets_eaten ∨ 12 * FPS < st.ghost_release_timer + 1) → gc2 = gc) := by
  have hgp : ghostRelease gp = { gp with mode := GMode.leaving, dir := (0, -1) } := by
    unfold ghostRelease
    rw [if_pos hpm]
  have hgi : ghostRelease gi = { gi with mode := GMode.leaving, dir := (0, -1) } := by
    unfold ghostRelease
    rw [if_pos him]
  have hgc : ghostRelease gc = { gc with mode := GMode.leaving, dir := (0, -1) } := by
    unfold ghostRelease
    rw [if_pos hcm]
  have hlist : (releaseStep st).ghosts =
      [gb,
       if 7 ≤ st.pellets_eaten ∨ 4 * FPS < st.ghost_release_timer + 1
         then ghostRelease gp else gp,
       if 17 ≤ st.pellets_eaten ∨ 8 * FPS < st.ghost_release_timer + 1
         then ghostRelease gi else gi,
       if 32 ≤ st.pellets_eaten ∨ 12 * FPS < st.ghost_release_timer + 1
         then ghostRelease gc else gc] := by
    by_cases h7 : 7 ≤ st.pellets_eaten ∨ 4 * FPS < st.ghost_release_timer + 1 <;>
    by_cases h17 : 17 ≤ st.pellets_eaten ∨ 8 * FPS < st.ghost_release_timer + 1 <;>
    by_cases h32 : 32 ≤ st.pellets_eaten ∨ 12 * FPS < st.ghost_release_timer + 1 <;>
    simp [releaseStep, releaseOne, hg, hrel, h7, h17, h32, hbn, hpn, hin, hcn,
      hgp, hgi, hgc]
  refine ⟨_, _, _, hlist, ?_, ?_, ?_, ?_, ?_, ?_⟩
  · by_cases h7 : 7 ≤ st.pellets_eaten ∨ 4 * FPS < st.ghost_release_timer + 1 <;>
      simp [h7, hgp, hpm]
  · by_cases h17 : 17 ≤ st.pellets_eaten ∨ 8 * FPS < st.ghost_release_timer + 1 <;>
      simp [h17, hgi, him]
  · by_cases h32 : 32 ≤ st.pellets_eaten ∨ 12 * FPS < st.ghost_release_timer + 1 <;>
      simp [h32, hgc, hcm]
  · intro h7
    rw [if_neg h7]
  · intro h17
    rw [if_neg h17]
  · intro h32
    rw [if_neg h32]

/-- C6 witness: the release rules evaluated at the example state with
exactly 7 pellets eaten and zero elapsed time: pinky releases on this
exact frame, inky and clyde stay penned. -/
theorem pen_release_rules_witness :
    ∃ gp2 gi2 gc2 : GhostState,
      (releaseStep relSt).ghosts =
        [ghostInit GhostName.blinky (13, 11) (25, 0), gp2, gi2, gc2] ∧
      (gp2.mode = GMode.leaving ↔
        (7 ≤ relSt.pellets_eaten ∨ 4 * FPS < relSt.ghost_release_timer + 1)) ∧
      (gi2.mode = GMode.leaving ↔
        (17 ≤ relSt.pellets_eaten ∨ 8 * FPS < relSt.ghost_release_timer + 1)) ∧
      (gc2.mode = GMode.leaving ↔
        (32 ≤ relSt.pellets_eaten ∨ 12 * FPS < relSt.ghost_release_timer + 1)) ∧
      (¬(7 ≤ relSt.pellets_eaten ∨ 4 * FPS < relSt.ghost_release_timer + 1) →
        gp2 = ghostInit GhostName.pinky (13, 14) (2, 0)) ∧
      (¬(17 ≤ relSt.pellets_eaten ∨ 8 * FPS < relSt.ghost_release_timer + 1) →
        gi2 = ghostInit GhostName.inky (11, 14) (27, 29)) ∧
      (¬(32 ≤ relSt.pellets_eaten ∨ 12 * FPS < relSt.ghost_release_timer + 1) →
        gc2 = ghostInit GhostName.clyde (15, 14) (0, 29)) :=
  pen_release_rules relSt
    (ghostInit GhostName.blinky (13, 11) (25, 0))
    (ghostInit GhostName.pinky (13, 14) (2, 0))
    (ghostInit GhostName.inky (11, 14) (27, 29))
    (ghostInit GhostName.clyde (15, 14) (0, 29))
    rfl (by decide) (by decide) (by decide) (by decide)
    (by decide) (by decide) (by decide) rfl


/-- Helper: how one in-place character write changes a count. -/
theorem count_set_of_get (l : List Char) (j : Nat) (hj : j < l.length) (a b : Char) :
    (l.set j b).count a + (if l.get ⟨j, hj⟩ = a then 1 else 0) =
      l.count a + (if b = a then 1 else 0) := by
  induction l generalizing j with
  | nil => simp at hj
  | cons c cs ih =>
    cases j with
    | zero =>
      simp only [List.set, List.get, List.count_cons, beq_iff_eq]
      omega
    | succ j =>
      have hj2 : j < cs.length := by
        simp only [List.length_cons] at hj
        omega
      have h := ih j hj2
      simp only [List.set, List.get, List.count_cons, beq_iff_eq]
      omega

/-- Helper: blanking a pellet character removes exactly one pellet
from its row. -/
theorem rowPellets_set_pellet (r : List Char) (j : Nat) (hj : j < r.length)
    (hch : r.get ⟨j, hj⟩ = '.' ∨ r.get ⟨j, hj⟩ = 'o') :
    rowPellets (r.set j ' ') + 1 = rowPellets r := by
  have hdot := count_set_of_get r j hj '.' ' '
  have hpow := count_set_of_get r j hj 'o' ' '
  unfold rowPellets
  rcases hch with h | h <;> rw [h] at hdot hpow <;> simp at hdot hpow <;> omega

/-- Helper: replacing one row changes the overlay pellet count by the
difference of the row counts. -/
theorem pelletCount_set (m : Maze) (i : Nat) (r : List Char) (hi : i < m.length) :
    pelletCount (m.set i r) + rowPellets (m.get ⟨i, hi⟩) = pelletCount m + rowPellets r := by
  induction m generalizing i with
  | nil => simp at hi
  | cons x xs ih =>
    cases i with
    | zero =>
      simp only [List.set, List.get, pelletCount, List.map_cons, List.sum_cons]
      omega
    | succ i =>
      have hi2 : i < xs.length := by
        simp only [List.length_cons] at hi
        omega
      have h := ih i hi2
      simp only [List.set, List.get, pelletCount, List.map_cons, List.sum_cons] at h ⊢
      omega

/-- Helper: each step a level can take preserves the accounting
invariant: overlay pellets + pellets eaten + 1 = the stored total
(the +1 is the start-tile pellet `reset_level` removes without it ever
being consumable). -/
theorem levelStep_inv {s s2 : LevelObs} (hinv : LevelInv s) (hstep : LevelStep s s2) :
    LevelInv s2 := by
  cases hstep with
  | idle => exact hinv
  | eat col row hch =>
    unfold LevelInv at hinv ⊢
    simp only []
    unfold mazeAt at hch
    by_cases hrow : 0 ≤ row ∧ row < (s.maze.length : Int)
    · rw [dif_pos hrow] at hch
      by_cases hcol : 0 ≤ col ∧ col < ((s.maze.get ⟨row.toNat, by omega⟩).length : Int)
      · rw [dif_pos hcol] at hch
        have hrn : row.toNat < s.maze.length := by omega
        have hcn : col.toNat < (s.maze.get ⟨row.toNat, hrn⟩).length := by omega
        have hset : setTile s.maze row col ' ' =
            s.maze.set row.toNat ((s.maze.getD row.toNat []).set col.toNat ' ') := by
          unfold setTile
          rw [if_pos ⟨hrow.1, hcol.1⟩]
        have hgetD : s.maze.getD row.toNat [] = s.maze.get ⟨row.toNat, hrn⟩ := by
          rw [List.getD_eq_getElem s.maze [] hrn]
          simp [List.get_eq_getElem]
        have hrp := rowPellets_set_pellet (s.maze.get ⟨row.toNat, hrn⟩) col.toNat hcn hch
        have hpc := pelletCount_set s.maze row.toNat
          ((s.maze.get ⟨row.toNat, hrn⟩).set col.toNat ' ') hrn
        rw [hset, hgetD]
        omega
      · rw [dif_neg hcol] at hch
        rcases hch with h | h <;> exact absurd h (by decide)
    · rw [dif_neg hrow] at hch
      rcases hch with h | h <;> exact absurd h (by decide)
  | reset => decide

/-- C3: in every state reachable during a level, the pellets-eaten
counter stays strictly below the `count_pellets` total, so the
level-completion guard `pellets_eaten >= total_pellets` never
becomes true. -/
theorem pellets_eaten_lt_total (s : LevelObs) (h : LevelReachable s) :
    s.pellets_eaten < count_pellets ∧ ¬ count_pellets ≤ s.pellets_eaten := by
  have hinv : LevelInv s := by
    unfold LevelReachable at h
    induction h with
    | refl => decide
    | tail hsteps hstep ih => exact levelStep_inv ih hstep
  unfold LevelInv at hinv
  omega

/-- C3 witness: the bound evaluated at the level start state. -/
theorem pellets_eaten_lt_total_witness :
    (⟨resetMaze, 0⟩ : LevelObs).pellets_eaten < count_pellets :=
  (pellets_eaten_lt_total ⟨resetMaze, 0⟩ Relation.ReflTransGen.refl).1


/-- Helper: a skipped candidate (reverse or out-of-grid) leaves the
accumulator unchanged. -/
theorem seekF_illegal (dir0 : Int × Int) (col row : Int) (target : Int × Int)
    (acc : (Int × Int) × Option Int) (d : Int × Int)
    (h : ¬ seekLegal dir0 col row d) :
    seekF dir0 col row target acc d = acc := by
  unfold seekF
  unfold seekLegal at h
  push_neg at h
  by_cases hrev : d = (-dir0.1, -dir0.2)
  · rw [if_pos hrev]
  · rw [if_neg hrev, if_neg]
    intro hb
    have := h hrev
    omega

/-- Helper: a scored candidate always beats the initial infinity. -/
theorem seekF_legal_none (dir0 : Int × Int) (col row : Int) (target : Int × Int)
    (e : Int × Int) (d : Int × Int) (h : seekLegal dir0 col row d) :
    seekF dir0 col row target (e, none) d = (d, some (seekDist col row target d)) := by
  unfold seekF
  rw [if_neg h.1, if_pos ⟨h.2.1, h.2.2.1, h.2.2.2.1, h.2.2.2.2⟩]
  rfl

/-- Helper: a scored candidate with a strictly smaller distance
replaces the best so far. -/
theorem seekF_legal_some_lt (dir0 : Int × Int) (col row : Int) (target : Int × Int)
    (e : Int × Int) (v : Int) (d : Int × Int) (h : seekLegal dir0 col row d)
    (hlt : seekDist col row target d < v) :
    seekF dir0 col row target (e, some v) d = (d, some (seekDist col row target d)) := by
  unfold seekF
  rw [if_neg h.1, if_pos ⟨h.2.1, h.2.2.1, h.2.2.2.1, h.2.2.2.2⟩]
  simp only [seekDist] at hlt
  simp only [hlt, if_true]
  rfl

/-- Helper: a scored candidate that is not strictly closer is
discarded (so an exact tie keeps the earlier direction). -/
theorem seekF_legal_some_ge (dir0 : Int × Int) (col row : Int) (target : Int × Int)
    (e : Int × Int) (v : Int) (d : Int × Int) (h : seekLegal dir0 col row d)
    (hge : ¬ seekDist col row target d < v) :
    seekF dir0 col row target (e, some v) d = (e, some v) := by
  unfold seekF
  rw [if_neg h.1, if_pos ⟨h.2.1, h.2.2.1, h.2.2.2.1, h.2.2.2.2⟩]
  simp only [seekDist] at hge
  simp [hge]

/-- Helper: folding over candidates none of which strictly beats the
current best leaves the accumulator unchanged. -/
theorem seekFold_no_improve (dir0 : Int × Int) (col row : Int) (target : Int × Int) :
    ∀ (l : List (Int × Int)) (e : Int × Int) (v : Int),
      (∀ d ∈ l, seekLegal dir0 col row d → v ≤ seekDist col row target d) →
      l.foldl (seekF dir0 col row target) (e, some v) = (e, some v) := by
  intro l
  induction l with
  | nil =>
    intro e v _
    rfl
  | cons d rest ih =>
    intro e v hall
    rw [List.foldl_cons]
    by_cases hleg : seekLegal dir0 col row d
    · rw [seekF_legal_some_ge dir0 col row target e v d hleg
        (not_lt.mpr (hall d (by simp) hleg))]
      exact ih e v (fun d2 h2 hleg2 => hall d2 (by simp [h2]) hleg2)
    · rw [seekF_illegal dir0 col row target (e, some v) d hleg]
      exact ih e v (fun d2 h2 hleg2 => hall d2 (by simp [h2]) hleg2)

/-- Helper: when some candidate strictly beats the current best, the
fold returns the first candidate of minimal distance: strictly closer
than every scored candidate before it, at most the distance of every
scored candidate after it. -/
theorem seekFold_improve (dir0 : Int × Int) (col row : Int) (target : Int × Int) :
    ∀ (l : List (Int × Int)) (e : Int × Int) (v : Int),
      (∃ d ∈ l, seekLegal dir0 col row d ∧ seekDist col row target d < v) →
      ∃ (l1 : List (Int × Int)) (c : Int × Int) (l2 : List (Int × Int)),
        l = l1 ++ c :: l2 ∧ seekLegal dir0 col row c ∧
        seekDist col row target c < v ∧
        (∀ d ∈ l1, seekLegal dir0 col row d →
          seekDist col row target c < seekDist col row target d) ∧
        (∀ d ∈ l2, seekLegal dir0 col row d →
          seekDist col row target c ≤ seekDist col row target d) ∧
        l.foldl (seekF dir0 col row target) (e, some v) =
          (c, some (seekDist col row target c)) := by
  intro l
  induction l with
  | nil =>
    rintro e v ⟨d, hd, _⟩
    simp at hd
  | cons d rest ih =>
    intro e v hex
    by_cases hleg : seekLegal dir0 col row d
    · by_cases hlt : seekDist col row target d < v
      · by_cases hex2 : ∃ d2 ∈ rest, seekLegal dir0 col row d2 ∧
            seekDist col row target d2 < seekDist col row target d
        · obtain ⟨l1, c, l2, hsplit, hlegc, hltc, h1, h2, hfold⟩ :=
            ih d (seekDist col row target d) hex2
          refine ⟨d :: l1, c, l2, by rw [hsplit, List.cons_append], hlegc, lt_trans hltc hlt, ?_, h2, ?_⟩
          · intro d2 hd2 hleg2
            rcases List.mem_cons.mp hd2 with h | h
            · subst h
              exact hltc
            · exact h1 d2 h hleg2
          · rw [List.foldl_cons,
              seekF_legal_some_lt dir0 col row target e v d hleg hlt, hfold]
        · push_neg at hex2
          refine ⟨[], d, rest, rfl, hleg, hlt, by simp, ?_, ?_⟩
          · intro d2 hd2 hleg2
            exact hex2 d2 hd2 hleg2
          · rw [List.foldl_cons,
              seekF_legal_some_lt dir0 col row target e v d hleg hlt]
            exact seekFold_no_improve dir0 col row target rest d
              (seekDist col row target d)
              (fun d2 h2 hleg2 => hex2 d2 h2 hleg2)
      · have hex2 : ∃ d2 ∈ rest, seekLegal dir0 col row d2 ∧
            seekDist col row target d2 < v := by
          rcases hex with ⟨d2, hd2, hleg2, hlt2⟩
          rcases List.mem_cons.mp hd2 with h | h
          · subst h
            exact absurd hlt2 hlt
          · exact ⟨d2, h, hleg2, hlt2⟩
        obtain ⟨l1, c, l2, hsplit, hlegc, hltc, h1, h2, hfold⟩ := ih e v hex2
        refine ⟨d :: l1, c, l2, by rw [hsplit, List.cons_append], hlegc, hltc, ?_, h2, ?_⟩
        · intro d2 hd2 hleg2
          rcases List.mem_cons.mp hd2 with h | h
          · subst h
            have hge := not_lt.mp hlt
            omega
          · exact h1 d2 h hleg2
        · rw [List.foldl_cons,
            seekF_legal_some_ge dir0 col row target e v d hleg hlt, hfold]
    · have hex2 : ∃ d2 ∈ rest, seekLegal dir0 col row d2 ∧
          seekDist col row target d2 < v := by
        rcases hex with ⟨d2, hd2, hleg2, hlt2⟩
        rcases List.mem_cons.mp hd2 with h | h
        · subst h
          exact absurd hleg2 hleg
        · exact ⟨d2, h, hleg2, hlt2⟩
      obtain ⟨l1, c, l2, hsplit, hlegc, hltc, h1, h2, hfold⟩ := ih e v hex2
      refine ⟨d :: l1, c, l2, by rw [hsplit, List.cons_append], hlegc, hltc, ?_, h2, ?_⟩
      · intro d2 hd2 hleg2
        rcases List.mem_cons.mp hd2 with h | h
        · subst h
          exact absurd hleg2 hleg
        · exact h1 d2 h hleg2
      · rw [List.foldl_cons,
          seekF_illegal dir0 col row target (e, some v) d hleg, hfold]

/-- Helper: from the infinite initial best, the fold commits to the
first scored candidate of minimal distance. -/
theorem seekFold_from_none (dir0 : Int × Int) (col row : Int) (target : Int × Int) :
    ∀ (l : List (Int × Int)) (e : Int × Int),
      (∃ d ∈ l, seekLegal dir0 col row d) →
      ∃ (l1 : List (Int × Int)) (c : Int × Int) (l2 : List (Int × Int)),
        l = l1 ++ c :: l2 ∧ seekLegal dir0 col row c ∧
        (∀ d ∈ l1, seekLegal dir0 col row d →
          seekDist col row target c < seekDist col row target d) ∧
        (∀ d ∈ l2, seekLegal dir0 col row d →
          seekDist col row target c ≤ seekDist col row target d) ∧
        l.foldl (seekF dir0 col row target) (e, none) =
          (c, some (seekDist col row target c)) := by
  intro l
  induction l with
  | nil =>
    rintro e ⟨d, hd, _⟩
    simp at hd
  | cons d rest ih =>
    intro e hex
    by_cases hleg : seekLegal dir0 col row d
    · by_cases hex2 : ∃ d2 ∈ rest, seekLegal dir0 col row d2 ∧
          seekDist col row target d2 < seekDist col row target d
      · obtain ⟨l1, c, l2, hsplit, hlegc, hltc, h1, h2, hfold⟩ :=
          seekFold_improve dir0 col row target rest d (seekDist col row target d) hex2
        refine ⟨d :: l1, c, l2, by rw [hsplit, List.cons_append], hlegc, ?_, h2, ?_⟩
        · intro d2 hd2 hleg2
          rcases List.mem_cons.mp hd2 with h | h
          · subst h
            exact hltc
          · exact h1 d2 h hleg2
        · rw [List.foldl_cons,
            seekF_legal_none dir0 col row target e d hleg, hfold]
      · push_neg at hex2
        refine ⟨[], d, rest, rfl, hleg, by simp, ?_, ?_⟩
        · intro d2 hd2 hleg2
          exact hex2 d2 hd2 hleg2
        · rw [List.foldl_cons,
            seekF_legal_none dir0 col row target e d hleg]
          exact seekFold_no_improve dir0 col row target rest d
            (seekDist col row target d)
            (fun d2 h2 hleg2 => hex2 d2 h2 hleg2)
    · have hex2 : ∃ d2 ∈ rest, seekLegal dir0 col row d2 := by
        rcases hex with ⟨d2, hd2, hleg2⟩
        rcases List.mem_cons.mp hd2 with h | h
        · subst h
          exact absurd hleg2 hleg
        · exact ⟨d2, h, hleg2⟩
      obtain ⟨l1, c, l2, hsplit, hlegc, h1, h2, hfold⟩ := ih e hex2
      refine ⟨d :: l1, c, l2, by rw [hsplit, List.cons_append], hlegc, ?_, h2, ?_⟩
      · intro d2 hd2 hleg2
        rcases List.mem_cons.mp hd2 with h | h
        · subst h
          exact absurd hleg2 hleg
        · exact h1 d2 h hleg2
      · rw [List.foldl_cons,
          seekF_illegal dir0 col row target (e, none) d hleg, hfold]

/-- C9 (amended): at a centered intersection, provided some candidate
is scorable, the committed direction is drawn from the fixed priority
list (up, down, left, right), is never the direct reverse of the
current direction, is legal (its one-step-ahead tile lies inside the
28 × 31 grid — the out-of-grid filter is the amendment to the claim,
and there is no wall filter), has minimal squared Euclidean distance
from the one-step-ahead tile to the target among all legal candidates,
and on ties beats exactly the candidates evaluated after it: every
legal candidate earlier in the priority list is strictly farther. -/
theorem seek_target_choice (dir0 : Int × Int) (col row : Int) (target : Int × Int)
    (hex : ∃ d ∈ seekCand, seekLegal dir0 col row d) :
    ∃ (l1 l2 : List (Int × Int)),
      seekCand = l1 ++ seekChoose dir0 col row target :: l2 ∧
      seekLegal dir0 col row (seekChoose dir0 col row target) ∧
      (∀ d ∈ l1, seekLegal dir0 col row d →
        seekDist col row target (seekChoose dir0 col row target) < seekDist col row target d) ∧
      (∀ d ∈ l2, seekLegal dir0 col row d →
        seekDist col row target (seekChoose dir0 col row target) ≤ seekDist col row target d) ∧
      seekChoose dir0 col row target ≠ (-dir0.1, -dir0.2) := by
  obtain ⟨l1, c, l2, hsplit, hlegc, h1, h2, hfold⟩ :=
    seekFold_from_none dir0 col row target seekCand dir0 hex
  have hch : seekChoose dir0 col row target = c := by
    unfold seekChoose seekFold
    rw [hfold]
  rw [hch]
  exact ⟨l1, l2, hsplit, hlegc, h1, h2, hlegc.1⟩

/-- C9 witness: the characterization evaluated at a concrete centered
intersection (current direction up, target straight above). -/
theorem seek_target_choice_witness :
    ∃ (l1 l2 : List (Int × Int)),
      seekCand = l1 ++ seekChoose (0, -1) 13 23 (13, 11) :: l2 ∧
      seekLegal (0, -1) 13 23 (seekChoose (0, -1) 13 23 (13, 11)) ∧
      (∀ d ∈ l1, seekLegal (0, -1) 13 23 d →
        seekDist 13 23 (13, 11) (seekChoose (0, -1) 13 23 (13, 11)) < seekDist 13 23 (13, 11) d) ∧
      (∀ d ∈ l2, seekLegal (0, -1) 13 23 d →
        seekDist 13 23 (13, 11) (seekChoose (0, -1) 13 23 (13, 11)) ≤ seekDist 13 23 (13, 11) d) ∧
      seekChoose (0, -1) 13 23 (13, 11) ≠ (-(0 : Int), -(-1 : Int)) :=
  seek_target_choice (0, -1) 13 23 (13, 11) ⟨(0, -1), by decide, by decide⟩

/-- C9 counterexample: at tile (0, 14) moving left with target
(-5, 14), the direction left is a non-reverse cardinal whose
one-step-ahead tile is strictly closest to the target, yet the loop
commits up — candidates with out-of-grid one-step-ahead tiles are
excluded, contrary to the claim that the candidate set is exactly the
four cardinals minus the direct reverse. -/
theorem seek_ignores_out_of_grid :
    seekChoose (-1, 0) 0 14 (-5, 14) = (0, -1) ∧
    ((-1, 0) : Int × Int) ∈ seekCand ∧
    ((-1, 0) : Int × Int) ≠ (-(-1 : Int), -(0 : Int)) ∧
    seekDist 0 14 (-5, 14) (-1, 0) < seekDist 0 14 (-5, 14) (0, -1) := by
  refine ⟨by decide, by decide, by decide, by decide⟩


end Pacman4k
